import Mathlib

/-!
Verification of the real-time session engine of the Gemini Interview Coach
repository (src/types.ts: the `App` component's session callbacks, and the
`FeedbackList` component).

The embedding models the mutable refs and React state of the `App` component
as one record (`AppState`) and each externally triggered handler — the
`onmessage` branches (audio data, interruption, transcriptions, turn
completion, tool calls), the `onended` playback callback, `stopSession`,
`onerror`, `onclose`, and the success path of `startSession` — as one step of
a transition function over `ServerEvent`s.  Timestamps of the audio clock
(`AudioContext.currentTime`, seconds) are rationals; `Date.now()` timestamps
are integers.  Decoding of an inbound audio chunk (`decodeAudioData`) is
modelled by its outcome: `some duration` on success, `none` when the decode
promise rejects.  Fresh object identities (audio source nodes, the random
feedback ids) are modelled by a counter.
-/

namespace GeminiCoach

/-- A scheduled playback source node (`AudioBufferSourceNode` held in
`sourcesRef`): `scheduledStart` is the argument passed to `source.start`,
`duration` is `audioBuffer.duration`.  `id` models object identity. -/
structure PlaybackHandle where
  id : Nat
  scheduledStart : ℚ
  duration : ℚ
deriving DecidableEq, Repr

/-- Arguments of an inbound `provideFeedback` tool call.  The source reads
them from an `any`-typed object, so each field may be absent (`undefined`),
modelled by `none`. -/
structure ToolCallArgs where
  category : Option String
  message : Option String
  sentiment : Option String
deriving DecidableEq, Repr

/-- One entry of `msg.toolCall.functionCalls`. -/
structure FunctionCall where
  id : String
  name : String
  args : ToolCallArgs
deriving DecidableEq, Repr

/-- A feedback event as stored in the `feedbacks` state (src/types.ts
`FeedbackMessage`).  `id` models the random id `Math.random().toString(36)`;
the three argument fields are copied from the call's `any`-typed args, hence
optional at runtime. -/
structure FeedbackMessage where
  id : Nat
  category : Option String
  message : Option String
  sentiment : Option String
  timestamp : Int
deriving DecidableEq, Repr

/-- src/types.ts `TranscriptionEntry`: `role` is "user" or "model". -/
structure TranscriptionEntry where
  role : String
  text : String
  timestamp : Int
deriving DecidableEq, Repr

/-- The payload of `session.sendToolResponse` (`functionResponses`): the
acknowledgment sent back for a tool call. -/
structure ToolResponse where
  id : String
  name : String
  result : String
deriving DecidableEq, Repr

/-- The `App` component's state: React `useState` values (`isActive`,
`isSpeaking`, `feedbacks`, `transcriptions`, `error`) and mutable refs
(`nextStartTimeRef`, `sourcesRef`, `transcriptionBufferRef`,
`sessionRef`).  `captureActive` models the microphone stream and script
processor acquired in `startSession`; `stoppedIds` logs every source node on
which `.stop()` was called; `acks` logs every acknowledgment handed to
`session.sendToolResponse`; `nextId` generates fresh identities. -/
structure AppState where
  isActive : Bool
  isSpeaking : Bool
  errorMsg : Option String
  feedbacks : List FeedbackMessage
  transcriptions : List TranscriptionEntry
  nextStartTime : ℚ
  sources : List PlaybackHandle
  bufUser : String
  bufModel : String
  sessionOpen : Bool
  captureActive : Bool
  stoppedIds : List Nat
  acks : List ToolResponse
  nextId : Nat
deriving DecidableEq, Repr

/-- The externally triggered handler invocations of the `App` component.
`audioData decoded clockNow` is one inbound audio chunk: `decoded` is the
outcome of `decodeAudioData` and `clockNow` the output context's
`currentTime` when the message is handled. -/
inductive ServerEvent where
  | startSession
  | audioData (decoded : Option ℚ) (clockNow : ℚ)
  | interrupted
  | inputTranscription (text : String)
  | outputTranscription (text : String)
  | turnComplete (now : Int)
  | toolCall (calls : List FunctionCall) (now : Int)
  | sourceEnded (hid : Nat)
  | stopSession
  | onError
  | onClose
deriving DecidableEq, Repr

/-- The fixed acknowledgment built for a function call, keyed by the call's
id and name with payload result "feedback_received". -/
def mkAck (fc : FunctionCall) : ToolResponse :=
  { id := fc.id, name := fc.name, result := "feedback_received" }

/-- Body of the `for (const fc of msg.toolCall.functionCalls)` loop: only a
call named "provideFeedback" is handled — its args are copied (unvalidated)
into a new `FeedbackMessage` prepended to `feedbacks`, and exactly one
acknowledgment is sent.  Any other call name is ignored entirely. -/
def handleToolCall (now : Int) (s : AppState) (fc : FunctionCall) : AppState :=
  if fc.name = "provideFeedback" then
    { s with
      feedbacks :=
        { id := s.nextId, category := fc.args.category, message := fc.args.message,
          sentiment := fc.args.sentiment, timestamp := now } :: s.feedbacks,
      acks := s.acks ++ [mkAck fc],
      nextId := s.nextId + 1 }
  else s

/-- The whole tool-call loop over `msg.toolCall.functionCalls`. -/
def handleToolCalls (now : Int) (s : AppState) (calls : List FunctionCall) : AppState :=
  calls.foldl (handleToolCall now) s

/-- `stopSession`: close the channel (`sessionRef.current.close()`), set
`isActive` and `isSpeaking` false, call `.stop()` on every source in
`sourcesRef` and clear the set.  The microphone stream and script processor
are NOT touched by the source, so `captureActive` is left as is. -/
def doStopSession (s : AppState) : AppState :=
  { s with
    sessionOpen := false,
    isActive := false,
    isSpeaking := false,
    stoppedIds := s.stoppedIds ++ s.sources.map (·.id),
    sources := [] }

/-- One handler invocation, mirroring the corresponding block of
src/types.ts. -/
def step (s : AppState) : ServerEvent → AppState
  | .startSession =>
      { s with errorMsg := none, isActive := true, captureActive := true, sessionOpen := true }
  | .audioData decoded clockNow =>
      let s1 := { s with
        isSpeaking := true,
        nextStartTime := max s.nextStartTime clockNow }
      match decoded with
      | none => s1
      | some dur =>
          { s1 with
            sources := s1.sources ++ [⟨s1.nextId, s1.nextStartTime, dur⟩],
            nextStartTime := s1.nextStartTime + dur,
            nextId := s1.nextId + 1 }
  | .interrupted =>
      { s with
        stoppedIds := s.stoppedIds ++ s.sources.map (·.id),
        sources := [],
        nextStartTime := 0,
        isSpeaking := false }
  | .inputTranscription t => { s with bufUser := s.bufUser ++ t }
  | .outputTranscription t => { s with bufModel := s.bufModel ++ t }
  | .turnComplete now =>
      let uText := s.bufUser
      let mText := s.bufModel
      let s1 :=
        if uText ≠ "" ∨ mText ≠ "" then
          { s with transcriptions := s.transcriptions
              ++ (if uText ≠ "" then [⟨"user", uText, now⟩] else [])
              ++ (if mText ≠ "" then [⟨"model", mText, now⟩] else []) }
        else s
      { s1 with bufUser := "", bufModel := "" }
  | .toolCall calls now => handleToolCalls now s calls
  | .sourceEnded hid =>
      let sources' := s.sources.filter (fun h => h.id ≠ hid)
      { s with
        sources := sources',
        isSpeaking := if sources'.length = 0 then false else s.isSpeaking }
  | .stopSession => doStopSession s
  | .onError =>
      doStopSession { s with
        errorMsg := some "Communication lost. Please try restarting the session." }
  | .onClose => { s with isActive := false }

/-- Initial component state: `useState(false)`, `useState([])`,
`useRef(0)`, `useRef(new Set())`, empty transcription buffers. -/
def init : AppState :=
  { isActive := false, isSpeaking := false, errorMsg := none, feedbacks := [],
    transcriptions := [], nextStartTime := 0, sources := [], bufUser := "",
    bufModel := "", sessionOpen := false, captureActive := false,
    stoppedIds := [], acks := [], nextId := 0 }

/-- A reachable state: the result of processing a sequence of handler
invocations from the initial state. -/
def run (evs : List ServerEvent) : AppState := evs.foldl step init

/-- `FeedbackList` (src/components/FeedbackList.tsx): sorts a spread copy of
the `feedbacks` prop with comparator `(a, b) => b.timestamp - a.timestamp`.
JavaScript `Array.prototype.sort` is stable, and a stable sort by a total
preorder has a unique result, so any stable sort gives the same list;
insertion sort is used here because it is structurally recursive.  The prop
itself is not mutated (the sort runs on the copy). -/
def sortedFeedbacks (feedbacks : List FeedbackMessage) : List FeedbackMessage :=
  feedbacks.insertionSort (fun a b => b.timestamp ≤ a.timestamp)

/-- `true` unless the event is an inbound audio chunk whose decode fails. -/
def decodeOk : ServerEvent → Bool
  | .audioData none _ => false
  | _ => true

/-! ### Helper lemmas -/

theorem handleToolCalls_acks (now : Int) (calls : List FunctionCall) (s : AppState) :
    (handleToolCalls now s calls).acks =
      s.acks ++ (calls.filter (fun fc => decide (fc.name = "provideFeedback"))).map mkAck := by
  induction calls generalizing s with
  | nil => simp [handleToolCalls]
  | cons fc rest ih =>
      have e : handleToolCalls now s (fc :: rest)
          = handleToolCalls now (handleToolCall now s fc) rest := rfl
      rw [e, ih]
      by_cases h : fc.name = "provideFeedback" <;>
        simp [handleToolCall, h, List.filter_cons]

theorem handleToolCalls_sources (now : Int) (calls : List FunctionCall) (s : AppState) :
    (handleToolCalls now s calls).sources = s.sources ∧
    (handleToolCalls now s calls).isSpeaking = s.isSpeaking := by
  induction calls generalizing s with
  | nil => exact ⟨rfl, rfl⟩
  | cons fc rest ih =>
      have e : handleToolCalls now s (fc :: rest)
          = handleToolCalls now (handleToolCall now s fc) rest := rfl
      have hs : (handleToolCall now s fc).sources = s.sources := by
        by_cases h : fc.name = "provideFeedback" <;> simp [handleToolCall, h]
      have hsp : (handleToolCall now s fc).isSpeaking = s.isSpeaking := by
        by_cases h : fc.name = "provideFeedback" <;> simp [handleToolCall, h]
      rw [e]
      rcases ih (handleToolCall now s fc) with ⟨h1, h2⟩
      exact ⟨h1.trans hs, h2.trans hsp⟩

/-! ### Claims -/

/-- Claim C2: for every prior state, after the interruption message is
processed, every previously active handle has been halted (its id is
appended to the stop log), `activeHandles` (`sourcesRef`) is empty,
`nextStartTime` is reset to 0, and the speaking indicator is false. -/
theorem c2_interrupt_resets (s : AppState) :
    (step s .interrupted).sources = [] ∧
    (step s .interrupted).nextStartTime = 0 ∧
    (step s .interrupted).isSpeaking = false ∧
    (step s .interrupted).stoppedIds = s.stoppedIds ++ s.sources.map (·.id) :=
  ⟨rfl, rfl, rfl, rfl⟩

/-- Claim C6: flushing a turn appends, in this order, a user entry exactly
when the user buffer is non-empty and a model entry exactly when the model
buffer is non-empty (so two empty buffers append nothing, one non-empty
buffer appends exactly its entry, and when both are non-empty the user entry
precedes the model entry), and both buffers are reset to empty afterwards. -/
theorem c6_flushTurn (s : AppState) (now : Int) :
    (step s (.turnComplete now)).transcriptions =
      s.transcriptions
        ++ (if s.bufUser ≠ "" then [⟨"user", s.bufUser, now⟩] else [])
        ++ (if s.bufModel ≠ "" then [⟨"model", s.bufModel, now⟩] else []) ∧
    (step s (.turnComplete now)).bufUser = "" ∧
    (step s (.turnComplete now)).bufModel = "" := by
  refine ⟨?_, ?_, ?_⟩ <;>
    by_cases hu : s.bufUser = "" <;> by_cases hm : s.bufModel = "" <;>
      simp [step, hu, hm]

/-- Claim C9: transcription fragments are accumulated by pure string
concatenation onto the matching channel's buffer in arrival order, the other
buffer being untouched; appending "fil" then "ler" to the user buffer and
flushing yields exactly the entry with role "user" and text "filler". -/
theorem c9_append_concat (s : AppState) (t u : String) (now : Int) :
    (step s (.inputTranscription t)).bufUser = s.bufUser ++ t ∧
    (step s (.inputTranscription t)).bufModel = s.bufModel ∧
    (step s (.outputTranscription u)).bufModel = s.bufModel ++ u ∧
    (step s (.outputTranscription u)).bufUser = s.bufUser ∧
    (run [.startSession, .inputTranscription "fil", .inputTranscription "ler",
          .turnComplete now]).transcriptions = [⟨"user", "filler", now⟩] := by
  refine ⟨rfl, rfl, rfl, rfl, ?_⟩
  rfl

/-- Claim C1 (counterexample): in a run with no interruption — chunk A
(duration 1) handled at clock 0, chunk B (duration 1) handled at clock 2 —
the second handle's scheduled start is 2, not the first handle's scheduled
start plus its duration (0 + 1): consecutive play windows are not contiguous
once the clock has overtaken `nextStartTime` (the channel went idle). -/
theorem c1_counterexample :
    (run [.startSession, .audioData (some 1) 0, .audioData (some 1) 2]).sources =
      [{ id := 0, scheduledStart := 0, duration := 1 },
       { id := 1, scheduledStart := 2, duration := 1 }] ∧
    ¬ ((2 : ℚ) = 0 + 1) := by
  constructor
  · norm_num [run, step, init]
  · norm_num

/-- Claim C1 (amended): each enqueued chunk's scheduled start equals
`max(nextStartTime, clockNow)` and `nextStartTime` is then advanced by
exactly the decoded chunk's duration; consecutive handles' play windows are
contiguous and non-overlapping provided the second chunk arrives while the
channel is not idle, i.e. its `clockNow` does not exceed the pending
`nextStartTime`. -/
theorem c1_gapless_scheduling (s : AppState) (d₁ c₁ d₂ c₂ : ℚ)
    (hbusy : c₂ ≤ (step s (.audioData (some d₁) c₁)).nextStartTime) :
    ∃ h₁ h₂ : PlaybackHandle,
      (step s (.audioData (some d₁) c₁)).sources = s.sources ++ [h₁] ∧
      h₁.scheduledStart = max s.nextStartTime c₁ ∧
      h₁.duration = d₁ ∧
      (step s (.audioData (some d₁) c₁)).nextStartTime = h₁.scheduledStart + d₁ ∧
      (step (step s (.audioData (some d₁) c₁)) (.audioData (some d₂) c₂)).sources
        = s.sources ++ [h₁, h₂] ∧
      h₂.scheduledStart = h₁.scheduledStart + h₁.duration ∧
      h₂.duration = d₂ ∧
      (step (step s (.audioData (some d₁) c₁)) (.audioData (some d₂) c₂)).nextStartTime
        = h₂.scheduledStart + d₂ := by
  have hb : c₂ ≤ max s.nextStartTime c₁ + d₁ := hbusy
  refine ⟨⟨s.nextId, max s.nextStartTime c₁, d₁⟩,
          ⟨s.nextId + 1, max s.nextStartTime c₁ + d₁, d₂⟩,
          rfl, rfl, rfl, rfl, ?_, rfl, rfl, ?_⟩ <;>
    simp [step, max_eq_left hb]

/-- Claim C1 witness: concrete instance — from the initial state, chunk A
(duration 1) at clock 0 and chunk B (duration 1) at clock 1/2 (the channel
is still busy until time 1) are scheduled gaplessly. -/
theorem c1_gapless_scheduling_witness :
    ((1 : ℚ)/2 ≤ (step init (.audioData (some 1) 0)).nextStartTime) ∧
    (∃ h₁ h₂ : PlaybackHandle,
      (step init (.audioData (some 1) 0)).sources = init.sources ++ [h₁] ∧
      h₁.scheduledStart = max init.nextStartTime 0 ∧
      h₁.duration = 1 ∧
      (step init (.audioData (some 1) 0)).nextStartTime = h₁.scheduledStart + 1 ∧
      (step (step init (.audioData (some 1) 0)) (.audioData (some 1) (1/2))).sources
        = init.sources ++ [h₁, h₂] ∧
      h₂.scheduledStart = h₁.scheduledStart + h₁.duration ∧
      h₂.duration = 1 ∧
      (step (step init (.audioData (some 1) 0)) (.audioData (some 1) (1/2))).nextStartTime
        = h₂.scheduledStart + 1) :=
  ⟨by norm_num [step, init],
   c1_gapless_scheduling init 1 0 1 (1/2) (by norm_num [step, init])⟩

/-- Claim C3 (counterexample): a `provideFeedback` tool call whose args lack
the required `sentiment` field still has a `FeedbackMessage` added to the
feedback history (with the missing field undefined), alongside the
acknowledgment — the source performs no required-field validation. -/
theorem c3_counterexample :
    init.feedbacks = [] ∧
    (step init (.toolCall
        [⟨"call7", "provideFeedback", ⟨some "Pace", some "slow down", none⟩⟩] 9)).feedbacks =
      [{ id := 0, category := some "Pace", message := some "slow down",
         sentiment := none, timestamp := 9 }] ∧
    (step init (.toolCall
        [⟨"call7", "provideFeedback", ⟨some "Pace", some "slow down", none⟩⟩] 9)).acks =
      [{ id := "call7", name := "provideFeedback", result := "feedback_received" }] :=
  ⟨rfl, rfl, rfl⟩

/-- Claim C3 (amended): a `provideFeedback` tool call with any of the three
required fields absent is still dispatched unvalidated: exactly one
acknowledgment is produced AND a `FeedbackMessage` carrying the absent
fields as undefined is prepended to the feedback history. -/
theorem c3_missing_field_recorded (s : AppState) (fc : FunctionCall) (now : Int)
    (hname : fc.name = "provideFeedback")
    (_hmiss : fc.args.category = none ∨ fc.args.message = none ∨ fc.args.sentiment = none) :
    (step s (.toolCall [fc] now)).feedbacks =
      { id := s.nextId, category := fc.args.category, message := fc.args.message,
        sentiment := fc.args.sentiment, timestamp := now } :: s.feedbacks ∧
    (step s (.toolCall [fc] now)).acks = s.acks ++ [mkAck fc] := by
  constructor <;> simp [step, handleToolCalls, handleToolCall, hname]

/-- Claim C3 witness: the amended claim at a concrete call missing
`sentiment`, dispatched from the initial state. -/
theorem c3_missing_field_recorded_witness :
    (step init (.toolCall [⟨"c1", "provideFeedback", ⟨some "Tone", some "good", none⟩⟩] 4)).feedbacks =
      { id := init.nextId, category := some "Tone", message := some "good",
        sentiment := none, timestamp := 4 } :: init.feedbacks ∧
    (step init (.toolCall [⟨"c1", "provideFeedback", ⟨some "Tone", some "good", none⟩⟩] 4)).acks =
      init.acks ++ [mkAck ⟨"c1", "provideFeedback", ⟨some "Tone", some "good", none⟩⟩] :=
  c3_missing_field_recorded init ⟨"c1", "provideFeedback", ⟨some "Tone", some "good", none⟩⟩ 4
    rfl (Or.inr (Or.inr rfl))

/-- Claim C4 (counterexample): a tool call named anything other than
"provideFeedback" produces NO acknowledgment at all (the loop body is
guarded by the name), contradicting "exactly one Acknowledgment per received
tool call, regardless of the call's name". -/
theorem c4_counterexample :
    init.acks = [] ∧
    (step init (.toolCall [⟨"call8", "otherTool", ⟨some "a", some "b", some "c"⟩⟩] 9)).acks
      = [] :=
  ⟨rfl, rfl⟩

/-- Claim C4 (amended): per inbound tool-call message, exactly one
acknowledgment — keyed by the originating call's id and name, with the fixed
success payload "feedback_received" — is appended per call named
"provideFeedback", in order, regardless of argument validity; calls with any
other name produce no acknowledgment. -/
theorem c4_ack_per_provideFeedback (s : AppState) (calls : List FunctionCall) (now : Int) :
    (step s (.toolCall calls now)).acks =
      s.acks ++ (calls.filter (fun fc => decide (fc.name = "provideFeedback"))).map mkAck :=
  handleToolCalls_acks now calls s

/-- Claim C5 (counterexample): from the started session (where
`nextStartTime = 0`), an inbound chunk whose decode fails handled at clock
1/2 leaves `nextStartTime = 1/2`, not 0: the scheduling state is NOT left
exactly as it was before the enqueue began, because the source raises
`nextStartTime` to `max(nextStartTime, currentTime)` before awaiting the
decode. -/
theorem c5_counterexample :
    (run [.startSession]).nextStartTime = 0 ∧
    (step (run [.startSession]) (.audioData none (1/2))).nextStartTime = 1/2 ∧
    ¬ ((1 : ℚ)/2 = 0) := by
  refine ⟨rfl, ?_, by norm_num⟩
  norm_num [run, step, init]

/-- Claim C5 (amended): a chunk whose decode fails is dropped — no handle is
created, `activeHandles` is unchanged and `nextStartTime` is not advanced by
any duration — but `nextStartTime` is first raised to
`max(nextStartTime, clockNow)` (the update precedes the decode), so it is
unchanged only when the clock has not overtaken it; playback scheduling of
later chunks continues normally. -/
theorem c5_decode_failure (s : AppState) (clockNow : ℚ) :
    (step s (.audioData none clockNow)).sources = s.sources ∧
    (step s (.audioData none clockNow)).nextStartTime = max s.nextStartTime clockNow ∧
    ∀ d c : ℚ, ∃ h : PlaybackHandle,
      (step (step s (.audioData none clockNow)) (.audioData (some d) c)).sources
        = s.sources ++ [h] ∧ h.duration = d := by
  refine ⟨rfl, rfl, fun d c => ?_⟩
  exact ⟨⟨s.nextId, max (max s.nextStartTime clockNow) c, d⟩, rfl, rfl⟩

/-- One step preserves "some handle is active iff the speaking indicator is
true", for every event except an audio-data message whose decode fails. -/
theorem speaking_consistent_step (s : AppState) (e : ServerEvent)
    (hs : s.sources ≠ [] ↔ s.isSpeaking = true) (he : decodeOk e = true) :
    (step s e).sources ≠ [] ↔ (step s e).isSpeaking = true := by
  cases e with
  | startSession => simpa [step] using hs
  | audioData d c =>
      cases d with
      | none => simp [decodeOk] at he
      | some dur => simp [step]
  | interrupted => simp [step]
  | inputTranscription t => simpa [step] using hs
  | outputTranscription t => simpa [step] using hs
  | turnComplete now =>
      have h1 : (step s (.turnComplete now)).sources = s.sources := by
        by_cases hu : s.bufUser = "" <;> by_cases hm : s.bufModel = "" <;>
          simp [step, hu, hm]
      have h2 : (step s (.turnComplete now)).isSpeaking = s.isSpeaking := by
        by_cases hu : s.bufUser = "" <;> by_cases hm : s.bufModel = "" <;>
          simp [step, hu, hm]
      rw [h1, h2]; exact hs
  | toolCall calls now =>
      rcases handleToolCalls_sources now calls s with ⟨h1, h2⟩
      show (handleToolCalls now s calls).sources ≠ [] ↔
        (handleToolCalls now s calls).isSpeaking = true
      rw [h1, h2]; exact hs
  | sourceEnded hid =>
      have hstep : step s (.sourceEnded hid)
          = { s with sources := s.sources.filter (fun h => h.id ≠ hid),
                     isSpeaking :=
                       if (s.sources.filter (fun h => h.id ≠ hid)).length = 0
                       then false else s.isSpeaking } := rfl
      rw [hstep]
      by_cases hlen : (s.sources.filter (fun h => h.id ≠ hid)).length = 0
      · have hemp := List.length_eq_zero.mp hlen
        rw [if_pos hlen]
        show s.sources.filter (fun h => h.id ≠ hid) ≠ [] ↔ false = true
        rw [hemp]
        simp
      · rw [if_neg hlen]
        have hne : s.sources.filter (fun h => h.id ≠ hid) ≠ [] := by
          intro h0; exact hlen (by rw [h0]; rfl)
        have hsrc : s.sources ≠ [] := by
          intro h0; apply hne; rw [h0]; rfl
        show s.sources.filter (fun h => h.id ≠ hid) ≠ [] ↔ s.isSpeaking = true
        rw [hs.mp hsrc]
        exact iff_of_true hne rfl
  | stopSession => simp [step, doStopSession]
  | onError => simp [step, doStopSession]
  | onClose => simpa [step] using hs

/-- The invariant along a whole run, from any starting state satisfying it. -/
theorem speaking_consistent_foldl (evs : List ServerEvent) (s : AppState)
    (hs : s.sources ≠ [] ↔ s.isSpeaking = true) (h : ∀ e ∈ evs, decodeOk e = true) :
    (evs.foldl step s).sources ≠ [] ↔ (evs.foldl step s).isSpeaking = true := by
  induction evs generalizing s with
  | nil => exact hs
  | cons e rest ih =>
      exact ih (step s e) (speaking_consistent_step s e hs (h e (by simp)))
        (fun e' he' => h e' (by simp [he']))

/-- Claim C7 (counterexample): an audio-data message whose decode fails,
arriving while no handle is active, reaches a state with the speaking
indicator true but `activeHandles` empty — `setIsSpeaking(true)` runs before
the decode — so the non-empty ⇔ speaking equivalence is violated at a
reachable state. -/
theorem c7_counterexample :
    (run [.startSession, .audioData none 1]).isSpeaking = true ∧
    (run [.startSession, .audioData none 1]).sources = [] ∧
    ¬ ((run [.startSession, .audioData none 1]).sources ≠ [] ↔
        (run [.startSession, .audioData none 1]).isSpeaking = true) := by
  refine ⟨rfl, rfl, ?_⟩
  intro hiff
  exact (hiff.mpr rfl) rfl

/-- Claim C7 (amended): at every reachable session state,
`activePlaybackHandles` is non-empty iff the speaking indicator is true —
across audio-data arrival, natural end-of-playback, interruption and session
stop — provided no audio-data message in the run had a decode failure (a
failed decode while idle sets speaking true with no handle active). -/
theorem c7_speaking_invariant (evs : List ServerEvent)
    (h : ∀ e ∈ evs, decodeOk e = true) :
    (run evs).sources ≠ [] ↔ (run evs).isSpeaking = true :=
  speaking_consistent_foldl evs init (by simp [init]) h

/-- Claim C7 witness: the amended invariant on a concrete decode-clean run
exercising enqueue, natural end of the last handle, a new enqueue,
interruption and stop. -/
theorem c7_speaking_invariant_witness :
    (∀ e ∈ [ServerEvent.startSession, .audioData (some 1) 0, .sourceEnded 0,
            .audioData (some 2) 3, .interrupted, .stopSession], decodeOk e = true) ∧
    ((run [ServerEvent.startSession, .audioData (some 1) 0, .sourceEnded 0,
           .audioData (some 2) 3, .interrupted, .stopSession]).sources ≠ [] ↔
      (run [ServerEvent.startSession, .audioData (some 1) 0, .sourceEnded 0,
            .audioData (some 2) 3, .interrupted, .stopSession]).isSpeaking = true) :=
  ⟨by decide, c7_speaking_invariant
    [ServerEvent.startSession, .audioData (some 1) 0, .sourceEnded 0,
     .audioData (some 2) 3, .interrupted, .stopSession] (by decide)⟩

/-- Claim C8 (counterexample): after an inbound close at a reachable state
with one scheduled handle, the phase has left Active (`isActive = false`)
but the handle is still in `activeHandles` (the `onclose` callback only
clears `isActive`); moreover even a user `stop()` leaves the microphone
capture resources held (no code path stops the media stream or script
processor). -/
theorem c8_counterexample :
    (step (run [.startSession, .audioData (some 1) 0]) .onClose).isActive = false ∧
    (step (run [.startSession, .audioData (some 1) 0]) .onClose).sources =
      [{ id := 0, scheduledStart := 0, duration := 1 }] ∧
    (step (run [.startSession, .audioData (some 1) 0]) .stopSession).captureActive
      = true := by
  refine ⟨rfl, ?_, rfl⟩
  norm_num [run, step, init]

/-- Claim C8 (amended): after a user `stop()` or an inbound error the
channel is released, every active handle is halted and `activeHandles` is
cleared, and the phase leaves Active; but the microphone capture resources
are never released on any path, and after an inbound close the phase leaves
Active while `activeHandles` is left untouched (nothing is halted or
cleared). -/
theorem c8_stop_release (s : AppState) :
    (step s .stopSession).sessionOpen = false ∧
    (step s .stopSession).isActive = false ∧
    (step s .stopSession).sources = [] ∧
    (step s .stopSession).stoppedIds = s.stoppedIds ++ s.sources.map (·.id) ∧
    (step s .stopSession).captureActive = s.captureActive ∧
    (step s .onError).sessionOpen = false ∧
    (step s .onError).isActive = false ∧
    (step s .onError).sources = [] ∧
    (step s .onError).captureActive = s.captureActive ∧
    (step s .onClose).isActive = false ∧
    (step s .onClose).sources = s.sources ∧
    (step s .onClose).isSpeaking = s.isSpeaking ∧
    (step s .onClose).stoppedIds = s.stoppedIds :=
  ⟨rfl, rfl, rfl, rfl, rfl, rfl, rfl, rfl, rfl, rfl, rfl, rfl, rfl⟩

/-- Claim C10 (counterexample): on two feedback events sharing one
timestamp, the rendered list is not in strictly descending timestamp order
(the comparator `b.timestamp - a.timestamp` leaves ties in arrival order),
refuting "strictly descending" for every input list. -/
theorem c10_counterexample :
    sortedFeedbacks
        [{ id := 0, category := none, message := none, sentiment := none, timestamp := 5 },
         { id := 1, category := none, message := none, sentiment := none, timestamp := 5 }] =
      [{ id := 0, category := none, message := none, sentiment := none, timestamp := 5 },
       { id := 1, category := none, message := none, sentiment := none, timestamp := 5 }] ∧
    ¬ List.Pairwise (fun a b : FeedbackMessage => b.timestamp < a.timestamp)
        (sortedFeedbacks
          [{ id := 0, category := none, message := none, sentiment := none, timestamp := 5 },
           { id := 1, category := none, message := none, sentiment := none, timestamp := 5 }]) := by
  constructor
  · decide
  · decide

instance : IsTotal FeedbackMessage (fun a b => b.timestamp ≤ a.timestamp) :=
  ⟨fun a b => le_total b.timestamp a.timestamp⟩

instance : IsTrans FeedbackMessage (fun a b => b.timestamp ≤ a.timestamp) :=
  ⟨fun _ _ _ h1 h2 => le_trans h2 h1⟩

/-- Claim C10 (amended): the feedback list renderer sorts a copy of its
input by non-increasing timestamp (newest first, ties kept in their original
relative order by stability) — the rendered list is a permutation of the
input and pairwise non-increasing in timestamp; the input itself is
unmodified (the sort operates on the spread copy). -/
theorem c10_sorted_newest_first (fbs : List FeedbackMessage) :
    List.Pairwise (fun a b : FeedbackMessage => b.timestamp ≤ a.timestamp)
      (sortedFeedbacks fbs) ∧
    (sortedFeedbacks fbs).Perm fbs := by
  constructor
  · exact List.sorted_insertionSort (fun a b : FeedbackMessage => b.timestamp ≤ a.timestamp) fbs
  · exact List.perm_insertionSort (fun a b : FeedbackMessage => b.timestamp ≤ a.timestamp) fbs

end GeminiCoach
